import Mathlib

/-!
Verification of the dflow-sdk utility layer: cursor pagination
(`dflow/utils/pagination.py`), retry with exponential backoff
(`dflow/utils/retry.py`), and the WebSocket streaming client
(`dflow/websocket/client.py`), shallowly embedded in Lean.

Python values are modelled with plain Lean data: an exception that a piece
of code may raise is an explicit `Except` / `Option PyErr` result, machine
integers are `Nat`, and Python floats appearing in the backoff arithmetic
are modelled exactly over `ℚ`.
-/

namespace DFlow

/-- Exception classes that appear in the modelled code paths. -/
inductive PyErr
  | valueError
  | attributeError
  | jsonError
  | unicodeError
  | validationError
  | apiError (statusCode : Nat)
  | connClosed
  | maxReconnect
  deriving DecidableEq

/-! ### Pagination engine (`dflow/utils/pagination.py`)

`paginate` builds a params dict per iteration: the `cursor` key is set only
when the current cursor is truthy (`if cursor:`), the `limit` key only when
`page_size` is truthy (`if page_size:`).  We model the dict as a structure
with the two optional keys. -/

/-- The request-params dict built by `paginate`: `cursor` and `limit` keys,
each present only when set. -/
structure PageParams where
  cursor : Option String
  limit : Option Nat
  deriving DecidableEq

/-- Python truthiness of a `str | None` value (`if cursor:`):
`None` and the empty string are falsy. -/
def truthyStr : Option String → Bool
  | none => false
  | some s => s.length != 0

/-- Python truthiness of an `int | None` value (`if page_size:`):
`None` and `0` are falsy. -/
def truthyNat : Option Nat → Bool
  | none => false
  | some n => n != 0

/-- The guard `max_items is not None and items_yielded >= max_items`
checked by `paginate` after yielding each item. -/
def reachedMax (maxItems : Option Nat) (itemsYielded : Nat) : Bool :=
  match maxItems with
  | some m => decide (m ≤ itemsYielded)
  | none => false

/-- The inner `for item in items:` loop of `paginate`: each item is yielded,
then `items_yielded` is incremented, then the generator returns if
`reachedMax`.  Returns the emitted items, the updated counter, and whether
the generator returned early. -/
def yieldItems (maxItems : Option Nat) : List T → Nat → List T × Nat × Bool
  | [], yielded => ([], yielded, false)
  | item :: rest, yielded =>
    let yielded2 := yielded + 1
    if reachedMax maxItems yielded2 then
      ([item], yielded2, true)
    else
      let r := yieldItems maxItems rest yielded2
      (item :: r.1, r.2.1, r.2.2)

/-- The `while True:` loop of `paginate`, with an explicit iteration budget
`fuel` (each loop iteration performs exactly one `fetch_page` call and
consumes one unit; `none` means the budget ran out before the generator
finished).  Arguments after the budget are the loop state: the current
cursor and `items_yielded`.  Returns the yielded items together with the
number of `fetch_page` calls performed. -/
def paginate (fetchPage : PageParams → R) (getItems : R → List T)
    (getCursor : R → Option String) (maxItems : Option Nat) (pageSize : Option Nat) :
    Nat → Option String → Nat → Option (List T × Nat)
  | 0, _, _ => none
  | fuel + 1, cursor, itemsYielded =>
    let params : PageParams :=
      { cursor := if truthyStr cursor then cursor else none
        limit := if truthyNat pageSize then pageSize else none }
    let response := fetchPage params
    let items := getItems response
    let step := yieldItems maxItems items itemsYielded
    if step.2.2 then
      some (step.1, 1)
    else
      let cursor2 := getCursor response
      if truthyStr cursor2 then
        match paginate fetchPage getItems getCursor maxItems pageSize fuel cursor2 step.2.1 with
        | none => none
        | some (rest, n) => some (step.1 ++ rest, n + 1)
      else
        some (step.1, 1)

/-- `collect_all`: run the `paginate` generator to completion from the
initial state (`cursor = None`, `items_yielded = 0`) and collect the
results into a list. -/
def collect_all (fetchPage : PageParams → R) (getItems : R → List T)
    (getCursor : R → Option String) (maxItems : Option Nat) (pageSize : Option Nat)
    (fuel : Nat) : Option (List T × Nat) :=
  paginate fetchPage getItems getCursor maxItems pageSize fuel none 0

/-! #### A concrete cursor-linked page chain

To state theorems about finite page sequences we instantiate `fetch_page`
with a server serving the pages of a list `pss`: page `i` carries cursor
`cursorString (i+1)` (a nonempty, hence truthy, string) unless it is the
last page, which carries an absent cursor. -/

/-- A response carrying an item list and an optional next-page cursor. -/
structure PageResp (T : Type) where
  items : List T
  cursor : Option String

/-- The cursor naming page `i`: a string of length `i` (nonempty, hence
truthy, for every `i ≥ 1`). -/
def cursorString (i : Nat) : String :=
  String.mk (List.replicate i 'a')

/-- The response for page `i` of the page list `pss`. -/
def pageAt (pss : List (List T)) (i : Nat) : PageResp T where
  items := pss.getD i []
  cursor := if i + 1 < pss.length then some (cursorString (i + 1)) else none

/-- A `fetch_page` function serving the pages of `pss` in cursor order:
an absent cursor parameter requests page `0`, and `cursorString i`
requests page `i`. -/
def fetchOf (pss : List (List T)) (params : PageParams) : PageResp T :=
  pageAt pss (match params.cursor with | none => 0 | some s => s.length)

theorem cursorString_length (i : Nat) : (cursorString i).length = i := by
  simp [cursorString, String.length]

theorem truthyStr_cursorString (i : Nat) :
    truthyStr (some (cursorString (i + 1))) = true := by
  simp [truthyStr, cursorString_length]

/-- Reference recursion on the remaining page suffix: what `paginate` does
on the chain built from `pss`, expressed directly on the list of pages.
Returns the yielded items and the number of `fetch_page` calls. -/
def runPages (maxItems : Option Nat) : List (List T) → Nat → List T × Nat
  | [], _ => ([], 0)
  | p :: rest, yielded =>
    let step := yieldItems maxItems p yielded
    if step.2.2 then (step.1, 1)
    else if rest.isEmpty then (step.1, 1)
    else
      let r := runPages maxItems rest step.2.1
      (step.1 ++ r.1, r.2 + 1)

/-- The params dict built in the iteration whose cursor state is
`cursorString i` addresses exactly page `i` of the chain (`cursorString 0`
is the empty string, falsy just like an absent cursor, so this also covers
the first iteration). -/
theorem fetchOf_params (pss : List (List T)) (i : Nat) (l : Option Nat) :
    fetchOf pss
      { cursor := if truthyStr (some (cursorString i)) then some (cursorString i) else none
        limit := l }
      = pageAt pss i := by
  rcases i with _ | j
  · simp [truthyStr, cursorString, fetchOf]
  · simp [truthyStr_cursorString, fetchOf, cursorString_length]

/-- Bridge: on the chain `fetchOf pss`, the fuelled `paginate` loop started
at page `i` computes `runPages` on the page suffix `pss.drop i`, for any
fuel covering the remaining pages. -/
theorem paginate_fetchOf (pss : List (List T)) (maxItems : Option Nat) :
    ∀ fuel i yielded, i < pss.length → pss.length - i ≤ fuel →
      paginate (fetchOf pss) PageResp.items PageResp.cursor maxItems none fuel
        (some (cursorString i)) yielded
      = some (runPages maxItems (pss.drop i) yielded) := by
  intro fuel
  induction fuel with
  | zero => intro i yielded hi hfuel; omega
  | succ fuel ih =>
    intro i yielded hi hfuel
    rw [paginate]
    simp only [truthyNat, fetchOf_params pss i]
    rw [List.drop_eq_getElem_cons hi, runPages]
    have hitems : (pageAt pss i).items = pss[i] := by
      simp [pageAt, List.getD_eq_getElem?_getD, List.getElem?_eq_getElem hi]
    rw [hitems]
    rcases hstop : (yieldItems maxItems pss[i] yielded).2.2 with _ | _
    · simp only [hstop, if_false, Bool.false_eq_true]
      have hcur : (pageAt pss i).cursor =
          if i + 1 < pss.length then some (cursorString (i + 1)) else none := rfl
      rcases Nat.lt_or_ge (i + 1) pss.length with hlt | hge
      · have hne : ¬ (pss.drop (i + 1)).isEmpty := by
          simp [List.isEmpty_iff, List.drop_eq_nil_iff]
          omega
        rw [hcur, if_pos hlt, truthyStr_cursorString,
          ih (i + 1) (yieldItems maxItems pss[i] yielded).2.1 hlt (by omega)]
        simp [hne]
      · have he : (pss.drop (i + 1)).isEmpty := by
          simp [List.isEmpty_iff, List.drop_eq_nil_iff]
          omega
        have hnot : ¬ (i + 1 < pss.length) := by omega
        rw [hcur, if_neg hnot]
        simp [truthyStr, he]
    · simp [hstop]

/-- Without a `max_items` bound the inner loop emits every item of the page
and never returns early. -/
theorem yieldItems_none (items : List T) :
    ∀ yielded, yieldItems none items yielded = (items, yielded + items.length, false) := by
  induction items with
  | nil => intro yielded; simp [yieldItems]
  | cons x rest ih =>
    intro yielded
    simp [yieldItems, reachedMax, ih (yielded + 1)]
    omega

/-- With bound `m` and `yielded < m`, the inner loop emits the next
`m - yielded` items of the page and returns early, unless the page is
shorter than that, in which case it emits the whole page and falls
through. -/
theorem yieldItems_some (m : Nat) :
    ∀ (items : List T) (yielded : Nat), yielded < m →
      yieldItems (some m) items yielded =
        if m - yielded ≤ items.length
        then (items.take (m - yielded), m, true)
        else (items, yielded + items.length, false) := by
  intro items
  induction items with
  | nil =>
    intro yielded hy
    rw [if_neg (by simp; omega)]
    simp [yieldItems]
  | cons x rest ih =>
    intro yielded hy
    rcases Nat.lt_or_ge (yielded + 1) m with hlt | hge
    · have hne : ¬ reachedMax (some m) (yielded + 1) = true := by
        simp [reachedMax]; omega
      rw [yieldItems, if_neg hne, ih (yielded + 1) hlt]
      rcases le_or_lt (m - (yielded + 1)) rest.length with hle | hgt
      · rw [if_pos hle, if_pos (by simp; omega)]
        have htake : m - yielded = (m - (yielded + 1)) + 1 := by omega
        simp [htake]
      · rw [if_neg (by omega), if_neg (by simp; omega)]
        simp
        omega
    · have heq : m = yielded + 1 := by omega
      have hr : reachedMax (some m) (yielded + 1) = true := by
        simp [reachedMax]; omega
      rw [yieldItems, if_pos hr, if_pos (by simp; omega)]
      have : m - yielded = 1 := by omega
      simp [this, heq]

/-- The number of `fetch_page` calls the spec predicts when a positive
bound of `k` further items is requested over the page suffix `pss`: pages
are consumed until one contains the `k`-th item (no fetch follows it), or
until the last page. -/
def pagesFetched (k : Nat) : List (List T) → Nat
  | [] => 0
  | [_] => 1
  | p :: q :: rest2 =>
    if k ≤ p.length then 1 else 1 + pagesFetched (k - p.length) (q :: rest2)

/-- Unbounded run: every item of every page is yielded, in order, with one
fetch per page. -/
theorem runPages_none (pss : List (List T)) :
    ∀ yielded, runPages none pss yielded = (pss.flatten, pss.length) := by
  induction pss with
  | nil => intro yielded; simp [runPages]
  | cons p rest ih =>
    intro yielded
    rw [runPages]
    simp only [yieldItems_none]
    rcases rest with _ | ⟨q, rest2⟩
    · simp
    · simp [ih]

/-- Bounded run: with `yielded < m`, exactly the next `m - yielded` items
of the concatenation are yielded (all of them if fewer exist), with
`pagesFetched` fetches. -/
theorem runPages_some (m : Nat) :
    ∀ (pss : List (List T)) (yielded : Nat), yielded < m →
      runPages (some m) pss yielded =
        (pss.flatten.take (m - yielded), pagesFetched (m - yielded) pss) := by
  intro pss
  induction pss with
  | nil => intro yielded hy; simp [runPages, pagesFetched]
  | cons p rest ih =>
    intro yielded hy
    rw [runPages]
    simp only [yieldItems_some m p yielded hy]
    rcases le_or_lt (m - yielded) p.length with hle | hgt
    · rw [if_pos hle]
      simp only [if_true]
      rcases rest with _ | ⟨q, rest2⟩
      · rw [pagesFetched]
        simp [List.take_append_eq_append_take, Nat.sub_eq_zero_of_le hle]
      · rw [pagesFetched, if_pos hle]
        simp [List.take_append_eq_append_take, Nat.sub_eq_zero_of_le hle]
    · have hnle : ¬ (m - yielded ≤ p.length) := by omega
      rw [if_neg hnle]
      simp only [Bool.false_eq_true, if_false]
      rcases rest with _ | ⟨q, rest2⟩
      · rw [pagesFetched]
        simp [List.take_of_length_le (Nat.le_of_lt hgt)]
      · have hy2 : yielded + p.length < m := by omega
        rw [pagesFetched, if_neg hnle]
        simp only [List.isEmpty_cons, if_false, Bool.false_eq_true]
        rw [ih (yielded + p.length) hy2]
        have harith : m - (yielded + p.length) = m - yielded - p.length := by omega
        simp [List.take_append_eq_append_take,
          List.take_of_length_le (Nat.le_of_lt hgt), harith]
        omega

/-- Starting the loop with the falsy cursor `some ""` is the same as
starting it with `None`: the params dict omits a falsy cursor either
way. -/
theorem paginate_start_cursor (fPage : PageParams → R) (gItems : R → List T)
    (gCursor : R → Option String) (maxItems pageSize : Option Nat)
    (fuel yielded : Nat) (hf : 0 < fuel) :
    paginate fPage gItems gCursor maxItems pageSize fuel (some (cursorString 0)) yielded
      = paginate fPage gItems gCursor maxItems pageSize fuel none yielded := by
  rcases fuel with _ | fuel
  · omega
  · rw [paginate, paginate]
    simp [truthyStr, cursorString_length]

/-- C1: over any finite nonempty cursor-linked page sequence whose last
page carries an absent cursor and with no `max_items`, `collect_all`
returns exactly the concatenation of the pages' item lists in order, and
terminates with exactly one `fetch_page` call per page (fuel equal to the
number of pages suffices). -/
theorem collect_all_returns_concatenation (pss : List (List T)) (h : pss ≠ []) :
    collect_all (fetchOf pss) PageResp.items PageResp.cursor none none pss.length
      = some (pss.flatten, pss.length) := by
  have hlen : 0 < pss.length := List.length_pos.mpr h
  rw [collect_all,
    ← paginate_start_cursor (fetchOf pss) PageResp.items PageResp.cursor none none
      pss.length 0 hlen,
    paginate_fetchOf pss none pss.length 0 0 hlen (by omega)]
  rw [List.drop_zero, runPages_none]

/-- C1 witness: the spec's example, three pages chained by cursors. -/
theorem collect_all_returns_concatenation_witness :
    collect_all (fetchOf [[1, 2, 3], [4, 5, 6], [7, 8, 9]]) PageResp.items PageResp.cursor
        none none 3
      = some ([1, 2, 3, 4, 5, 6, 7, 8, 9], 3) := by
  have h := collect_all_returns_concatenation
    ([[1, 2, 3], [4, 5, 6], [7, 8, 9]] : List (List Nat)) (by decide)
  exact h.trans (by decide)

/-- C4: with a positive bound `max_items = k` over any nonempty page
chain, `paginate` yields exactly the first `k` items of the concatenated
pages (all items when fewer than `k` exist), stopping mid-page upon the
`k`-th item with no `fetch_page` call after the page containing it
(`pagesFetched` pages in total). -/
theorem paginate_respects_max_items (pss : List (List T)) (k : Nat)
    (h : pss ≠ []) (hk : 0 < k) :
    collect_all (fetchOf pss) PageResp.items PageResp.cursor (some k) none pss.length
      = some (pss.flatten.take k, pagesFetched k pss) := by
  have hlen : 0 < pss.length := List.length_pos.mpr h
  rw [collect_all,
    ← paginate_start_cursor (fetchOf pss) PageResp.items PageResp.cursor (some k) none
      pss.length 0 hlen,
    paginate_fetchOf pss (some k) pss.length 0 0 hlen (by omega)]
  rw [List.drop_zero, runPages_some k pss 0 hk, Nat.sub_zero]

/-- C4 witness: `max_items = 5` over pages `[1,2,3]` and `[4,5,6]` yields
`[1,2,3,4,5]` with exactly two fetches. -/
theorem paginate_respects_max_items_witness :
    collect_all (fetchOf [[1, 2, 3], [4, 5, 6]]) PageResp.items PageResp.cursor
        (some 5) none 2
      = some ([1, 2, 3, 4, 5], 2) := by
  have h := paginate_respects_max_items ([[1, 2, 3], [4, 5, 6]] : List (List Nat)) 5
    (by decide) (by decide)
  exact h.trans (by decide)

/-- C3: evaluating the code at `max_items = 0` over a first page `[1,2,3]`
(absent cursor): the generator yields the first item, `[1]`, because the
bound is only checked after each yield — contradicting the documented
"maximum number of items" contract, under which nothing may be yielded. -/
theorem paginate_max_items_zero_yields_first_item :
    collect_all (fetchOf [[1, 2, 3]]) PageResp.items PageResp.cursor (some 0) none 1
      = some ([1], 1) ∧ ([1] : List Nat) ≠ [] := by
  decide

/-! ### Retry policy (`dflow/utils/retry.py`)

`with_retry` runs `for attempt in range(max_retries + 1):` around `fn`.
The operation is modelled as a function from the invocation index to an
`Except` result; the loop is the tail recursion below on the attempt
counter.  The returned `Nat` is the total number of invocations of `fn`
performed (the loop body calls `fn` exactly once per iteration). -/

/-- The retry loop of `with_retry`, from iteration `attempt` on: call
`fn attempt`; on success return its value; on error `e`, continue with the
next attempt when `attempt < max_retries and retry_check(e, attempt)`,
otherwise re-raise `e` itself. -/
def withRetryGo (fn : Nat → Except E T) (retryCheck : E → Nat → Bool)
    (maxRetries : Nat) (attempt : Nat) : Except E T × Nat :=
  match fn attempt with
  | .ok v => (.ok v, attempt + 1)
  | .error e =>
    if h : attempt < maxRetries ∧ retryCheck e attempt = true then
      withRetryGo fn retryCheck maxRetries (attempt + 1)
    else
      (.error e, attempt + 1)
termination_by maxRetries - attempt
decreasing_by
  exact Nat.sub_succ_lt_self maxRetries attempt h.1

/-- `with_retry(fn, max_retries, ..., should_retry)`: run the loop from
attempt `0`.  Backoff sleeps affect timing only, not the result, and are
not modelled here (the delay arithmetic is modelled separately by
`calculateDelay`). -/
def with_retry (fn : Nat → Except E T) (retryCheck : E → Nat → Bool)
    (maxRetries : Nat) : Except E T × Nat :=
  withRetryGo fn retryCheck maxRetries 0

theorem withRetryGo_all_fail (fn : Nat → Except E T) (errs : Nat → E)
    (retryCheck : E → Nat → Bool) (n : Nat)
    (hfail : ∀ i, fn i = .error (errs i))
    (hcheck : ∀ i, retryCheck (errs i) i = true) :
    ∀ fuel a, a ≤ n → n - a ≤ fuel →
      withRetryGo fn retryCheck n a = (.error (errs n), n + 1) := by
  intro fuel
  induction fuel with
  | zero =>
    intro a ha hfu
    have : a = n := by omega
    subst this
    rw [withRetryGo, hfail a]
    simp
  | succ fuel ih =>
    intro a ha hfu
    rcases Nat.lt_or_ge a n with hlt | hge
    · have hstep : withRetryGo fn retryCheck n a = withRetryGo fn retryCheck n (a + 1) := by
        rw [withRetryGo, hfail a]
        exact dif_pos ⟨hlt, hcheck a⟩
      rw [hstep]
      exact ih (a + 1) hlt (by omega)
    · have : a = n := by omega
      subst this
      rw [withRetryGo, hfail a]
      simp

/-- C2: if `fn` fails on every invocation with an error the retry
predicate accepts, `with_retry` with `max_retries = n` invokes `fn`
exactly `n + 1` times and then re-raises the very error object of the
last invocation, unwrapped. -/
theorem with_retry_exhaustion (fn : Nat → Except E T) (errs : Nat → E)
    (retryCheck : E → Nat → Bool) (n : Nat)
    (hfail : ∀ i, fn i = .error (errs i))
    (hcheck : ∀ i, retryCheck (errs i) i = true) :
    with_retry fn retryCheck n = (.error (errs n), n + 1) :=
  withRetryGo_all_fail fn errs retryCheck n hfail hcheck n 0 (Nat.zero_le n) (by omega)

/-- C2 witness: an operation always raising a 429 API error under
`max_retries = 2` raises that same error after exactly 3 invocations. -/
theorem with_retry_exhaustion_witness :
    with_retry (fun _ => (.error (PyErr.apiError 429) : Except PyErr Unit))
        (fun _ _ => true) 2
      = (.error (PyErr.apiError 429), 3) :=
  with_retry_exhaustion (fun _ => .error (PyErr.apiError 429))
    (fun _ => PyErr.apiError 429) (fun _ _ => true) 2 (fun _ => rfl) (fun _ => rfl)

/-! ### Backoff delay (`_calculate_delay` in `dflow/utils/retry.py`)

The float arithmetic is modelled exactly over `ℚ`; `random.random()` is
the parameter `rand`, which Python guarantees to lie in `[0, 1)`. -/

/-- The capped exponential delay (milliseconds) computed by
`_calculate_delay` before jitter:
`min(initial_delay_ms * backoff_multiplier ** attempt, max_delay_ms)`. -/
def delayWithCap (attempt : Nat) (initialDelayMs maxDelayMs multiplier : ℚ) : ℚ :=
  min (initialDelayMs * multiplier ^ attempt) maxDelayMs

/-- `_calculate_delay(attempt, initial_delay_ms, max_delay_ms,
backoff_multiplier)`: capped exponential delay plus jitter
`delay_with_cap * random.random() * 0.25`, converted to seconds. -/
def calculateDelay (attempt : Nat) (initialDelayMs maxDelayMs multiplier rand : ℚ) : ℚ :=
  let exponentialDelay := initialDelayMs * multiplier ^ attempt
  let cap := min exponentialDelay maxDelayMs
  let jitter := cap * rand * (1 / 4)
  (cap + jitter) / 1000

/-- C8: for attempts `a ≤ b`, positive initial and max delays, multiplier
at least 1, and jitter seed `rand ∈ [0, 1)`: the pre-jitter delay equals
`min(d0 * m ^ a, M)`, never exceeds `M`, and is non-decreasing in the
attempt index; the jitter added by `_calculate_delay` is non-negative and
at most a quarter of the pre-jitter delay. -/
theorem backoff_delay_bounds (a b : Nat) (d0 M m r : ℚ)
    (hd0 : 0 < d0) (hM : 0 < M) (hm : 1 ≤ m) (hr0 : 0 ≤ r) (hr1 : r < 1)
    (hab : a ≤ b) :
    delayWithCap a d0 M m = min (d0 * m ^ a) M ∧
    delayWithCap a d0 M m ≤ M ∧
    delayWithCap a d0 M m ≤ delayWithCap b d0 M m ∧
    calculateDelay a d0 M m r
      = (delayWithCap a d0 M m + delayWithCap a d0 M m * r * (1 / 4)) / 1000 ∧
    0 ≤ delayWithCap a d0 M m * r * (1 / 4) ∧
    delayWithCap a d0 M m * r * (1 / 4) ≤ (1 / 4) * delayWithCap a d0 M m := by
  have hcap0 : 0 ≤ delayWithCap a d0 M m :=
    le_min (mul_nonneg hd0.le (pow_nonneg (le_trans zero_le_one hm) a)) hM.le
  refine ⟨rfl, min_le_right _ _, ?_, rfl, ?_, ?_⟩
  · exact min_le_min
      (mul_le_mul_of_nonneg_left (pow_le_pow_right₀ hm hab) hd0.le) le_rfl
  · exact mul_nonneg (mul_nonneg hcap0 hr0) (by norm_num)
  · calc delayWithCap a d0 M m * r * (1 / 4)
        = (1 / 4) * (delayWithCap a d0 M m * r) := by ring
      _ ≤ (1 / 4) * delayWithCap a d0 M m := by
          have := mul_le_of_le_one_right hcap0 hr1.le
          nlinarith

/-- C8 witness: attempts 2 and 3 with the default parameters
(`initial_delay_ms = 1000`, `max_delay_ms = 30000`, multiplier 2) and
jitter seed `1/2`. -/
theorem backoff_delay_bounds_witness :
    delayWithCap 2 1000 30000 2 = min ((1000 : ℚ) * 2 ^ 2) 30000 ∧
    delayWithCap 2 1000 30000 2 ≤ 30000 ∧
    delayWithCap 2 1000 30000 2 ≤ delayWithCap 3 1000 30000 2 ∧
    calculateDelay 2 1000 30000 2 (1 / 2)
      = (delayWithCap 2 1000 30000 2 + delayWithCap 2 1000 30000 2 * (1 / 2) * (1 / 4)) / 1000 ∧
    0 ≤ delayWithCap 2 1000 30000 2 * (1 / 2) * (1 / 4) ∧
    delayWithCap 2 1000 30000 2 * (1 / 2) * (1 / 4) ≤ (1 / 4) * delayWithCap 2 1000 30000 2 :=
  backoff_delay_bounds 2 3 1000 30000 2 (1 / 2) (by norm_num) (by norm_num)
    (by norm_num) (by norm_num) (by norm_num) (by norm_num)

/-! ### Default cursor extraction (`get_cursor` default in `paginate` /
`paginate_async`)

The default is `lambda r: getattr(r, "cursor", None)`.  A response object
is modelled as its attribute dictionary; an attribute of declared Python
type `str | None` holds an `Option String`.  The three-argument `getattr`
builtin is total; the two-argument form raises `AttributeError` on a
missing attribute. -/

/-- A duck-typed response object: its named attributes, each holding a
`str | None` value. -/
structure PyAttrObj where
  attrs : List (String × Option String)

/-- Attribute lookup: `some v` when attribute `name` is present with value
`v`, `none` when the object has no such attribute. -/
def lookupAttr (o : PyAttrObj) (name : String) : Option (Option String) :=
  (o.attrs.find? (fun p => p.1 == name)).map (fun p => p.2)

/-- Python `getattr(obj, name, default)`: total, never raises. -/
def getattrOrDefault (o : PyAttrObj) (name : String) (dflt : Option String) :
    Option String :=
  match lookupAttr o name with
  | some v => v
  | none => dflt

/-- Python `getattr(obj, name)` without a default: raises `AttributeError`
when the attribute is missing. -/
def getattrNoDefault (o : PyAttrObj) (name : String) : Except PyErr (Option String) :=
  match lookupAttr o name with
  | some v => .ok v
  | none => .error .attributeError

/-- The default cursor extractor bound by `paginate` and `paginate_async`
when `get_cursor is None`: `lambda r: getattr(r, "cursor", None)`. -/
def defaultGetCursor (r : PyAttrObj) : Option String :=
  getattrOrDefault r "cursor" none

/-- C9: the default cursor extractor is total — it is a plain function
into `Option String` with no error case.  On every response object it
returns the `cursor` attribute's value when present and the explicit
absent value `None` when the attribute is missing; on exactly those
missing-attribute objects the default-less `getattr` would raise
`AttributeError`, which the bound default avoids. -/
theorem default_get_cursor_total (r : PyAttrObj) :
    (∀ v, lookupAttr r "cursor" = some v → defaultGetCursor r = v) ∧
    (lookupAttr r "cursor" = none →
      defaultGetCursor r = none ∧
      getattrNoDefault r "cursor" = .error PyErr.attributeError) := by
  constructor
  · intro v hv
    rw [defaultGetCursor, getattrOrDefault, hv]
  · intro hnone
    rw [defaultGetCursor, getattrOrDefault, hnone, getattrNoDefault, hnone]
    exact ⟨rfl, rfl⟩

/-- C9 witness: an object with no `cursor` attribute at all. -/
theorem default_get_cursor_total_witness :
    defaultGetCursor ⟨[("markets", some "m")]⟩ = none ∧
    getattrNoDefault ⟨[("markets", some "m")]⟩ "cursor" = .error PyErr.attributeError :=
  (default_get_cursor_total ⟨[("markets", some "m")]⟩).2 (by decide)

/-! ### WebSocket streaming client (`dflow/websocket/client.py`)

#### Callback registration and disposal

`on_price` (and each other `on_<event>`) appends the callback to the
event's list and returns `lambda: self._price_callbacks.remove(callback)`.
Python `list.remove` deletes the first element equal to its argument and
raises `ValueError` when no such element exists. -/

/-- Python `list.remove(x)`: remove the first occurrence of `x`, raising
`ValueError` when `x` is not in the list. -/
def pyListRemove [DecidableEq α] (l : List α) (x : α) : Except PyErr (List α) :=
  if x ∈ l then .ok (l.erase x) else .error .valueError

/-- `on_price(callback)`: append to the price-callback list and return the
disposer, a closure over the registered callback that runs
`list.remove(callback)` on whatever the list holds when invoked. -/
def onPriceRegister [DecidableEq α] (priceCallbacks : List α) (cb : α) :
    List α × (List α → Except PyErr (List α)) :=
  (priceCallbacks ++ [cb], fun current => pyListRemove current cb)

/-- C6 counterexample: register one callback, dispose it once (the list
becomes empty), then invoke the same disposer again: `list.remove` raises
`ValueError` instead of being a no-op, so the disposer is not idempotent
as claimed. -/
theorem disposer_second_call_raises :
    (onPriceRegister ([] : List Nat) 1).2 [1] = .ok [] ∧
    (onPriceRegister ([] : List Nat) 1).2 [] = .error PyErr.valueError :=
  ⟨rfl, rfl⟩

/-- C6 amended: registration appends, keeping earlier callbacks; the
disposer removes exactly the first instance equal to the registered
callback (count of that callback drops by one, every other callback's
count is unchanged); but a second invocation after the callback is gone
raises `ValueError` — it is not an idempotent no-op. -/
theorem disposer_removes_exactly_one [DecidableEq α]
    (priceCallbacks current : List α) (cb : α) :
    (onPriceRegister priceCallbacks cb).1 = priceCallbacks ++ [cb] ∧
    (cb ∈ current →
      (onPriceRegister priceCallbacks cb).2 current = .ok (current.erase cb) ∧
      (current.erase cb).count cb + 1 = current.count cb ∧
      ∀ d, d ≠ cb → (current.erase cb).count d = current.count d) ∧
    (cb ∉ current →
      (onPriceRegister priceCallbacks cb).2 current = .error PyErr.valueError) := by
  refine ⟨rfl, fun hmem => ⟨?_, ?_, ?_⟩, fun hnot => ?_⟩
  · rw [onPriceRegister]
    simp [pyListRemove, hmem]
  · have hpos : 0 < current.count cb := List.count_pos_iff.mpr hmem
    rw [List.count_erase_self]
    omega
  · intro d hd
    exact List.count_erase_of_ne hd current
  · rw [onPriceRegister]
    simp [pyListRemove, hnot]

/-- C6 witness for the amended statement: two registered callbacks; the
first is disposed, leaving exactly the second. -/
theorem disposer_removes_exactly_one_witness :
    (onPriceRegister ([] : List Nat) 1).1 = [1] ∧
    (onPriceRegister ([10] : List Nat) 1).2 [1, 2] = .ok [2] := by
  have h1 := disposer_removes_exactly_one ([] : List Nat) [1] 1
  have h2 := disposer_removes_exactly_one ([10] : List Nat) [1, 2] 1
  exact ⟨h1.1.trans (by decide), ((h2.2.1 (by decide)).1).trans rfl⟩

/-! #### Inbound message handling (`_handle_message`)

The whole body of `_handle_message` sits in one `try:` block whose
`except Exception` handler feeds the exception to every registered error
callback.  A message is either undecodable (UTF-8 decode or `json.loads`
raises) or decodes to a dict whose `"channel"` key (absent ⇒ `None`) is
compared against the three channel literals; the matching branch validates
the payload (`model_validate`, which may raise) and invokes that channel's
callbacks in list order.  Callbacks are modelled as an id paired with a
behaviour that may itself raise.  Python side effects before an exception
still happen, so the stages return the fired-callback ids together with an
optional exception. -/

/-- The three recognized channels. -/
inductive Channel
  | prices
  | trades
  | orderbook
  deriving DecidableEq

/-- Callback registry of a `DFlowWebSocket`: update callbacks carry an id
and a behaviour; error callbacks (assumed non-raising) carry just ids. -/
structure WsCallbacks (U : Type) where
  priceCbs : List (Nat × (U → Except PyErr Unit))
  tradeCbs : List (Nat × (U → Except PyErr Unit))
  orderbookCbs : List (Nat × (U → Except PyErr Unit))
  errorCbs : List Nat

/-- An inbound frame after the decoding stages: either one of them raised,
or a dict with an optional `"channel"` value and a payload was produced. -/
inductive WsMessage (P : Type)
  | undecodable (e : PyErr)
  | decoded (channel : Option String) (payload : P)

/-- Run a callback list in registration order: each callback is invoked in
turn; a raising callback aborts the iteration, its exception escaping to
the surrounding `try`.  Returns the ids invoked and the exception, if
any. -/
def runCallbacks {U : Type} : List (Nat × (U → Except PyErr Unit)) → U → List Nat × Option PyErr
  | [], _ => ([], none)
  | (i, f) :: rest, u =>
    match f u with
    | .error e => ([i], some e)
    | .ok _ =>
      let r := runCallbacks rest u
      (i :: r.1, r.2)

/-- The `try:` body of `_handle_message`: decode, read the channel tag,
validate and dispatch.  An unrecognized or absent channel matches no
branch and the body simply falls through.  Returns the update-callback ids
invoked and the exception escaping the body, if any. -/
def handleMessageBody {P U : Type} (validate : Channel → P → Except PyErr U)
    (cbs : WsCallbacks U) : WsMessage P → List Nat × Option PyErr
  | .undecodable e => ([], some e)
  | .decoded ch payload =>
    if ch = some "prices" then
      match validate .prices payload with
      | .error e => ([], some e)
      | .ok u => runCallbacks cbs.priceCbs u
    else if ch = some "trades" then
      match validate .trades payload with
      | .error e => ([], some e)
      | .ok u => runCallbacks cbs.tradeCbs u
    else if ch = some "orderbook" then
      match validate .orderbook payload with
      | .error e => ([], some e)
      | .ok u => runCallbacks cbs.orderbookCbs u
    else
      ([], none)

/-- The observable outcome of one `_handle_message` call: which update
callbacks fired, which error callbacks fired, and the exception the call
propagated to its caller (the listen loop), if any. -/
structure HandleOutcome where
  updatesFired : List Nat
  errorsFired : List Nat
  propagated : Option PyErr
  deriving DecidableEq

/-- `_handle_message`: the body under `try: ... except Exception as e:`,
whose handler invokes every registered error callback with `e` and
swallows it; nothing is re-raised. -/
def handleMessage {P U : Type} (validate : Channel → P → Except PyErr U)
    (cbs : WsCallbacks U) (msg : WsMessage P) : HandleOutcome :=
  match handleMessageBody validate cbs msg with
  | (fired, none) => ⟨fired, [], none⟩
  | (fired, some _) => ⟨fired, cbs.errorCbs, none⟩

/-- A callback list all of whose behaviours return normally fires
completely, in registration order. -/
theorem runCallbacks_all_ok {U : Type} (u : U) :
    ∀ l : List (Nat × (U → Except PyErr Unit)),
      (∀ c ∈ l, c.2 u = .ok ()) →
      runCallbacks l u = (l.map Prod.fst, none) := by
  intro l
  induction l with
  | nil => intro _; rfl
  | cons c rest ih =>
    intro hok
    obtain ⟨i, f⟩ := c
    have hf : f u = .ok () := hok (i, f) (List.mem_cons_self _ _)
    rw [runCallbacks, hf, ih (fun d hd => hok d (List.mem_cons_of_mem _ hd))]
    simp

/-- C7 counterexample: a successfully decoded message whose channel value
`"bogus"` is none of the three recognized values, with one registered
error callback: `_handle_message` matches no branch and raises nothing, so
the error callback set (here `[0]`, nonempty) is never invoked — the
message is silently dropped, not delivered to the error callbacks. -/
theorem unrecognized_channel_not_delivered :
    handleMessage (fun _ _ => (.ok () : Except PyErr Unit))
        ⟨[], [], [], [0]⟩ (.decoded (some "bogus") ())
      = ⟨[], [], none⟩ ∧ ([0] : List Nat) ≠ [] := by
  constructor
  · rfl
  · decide

/-- C7 amended: (a) a message failing to decode is delivered to every
registered error callback and to no update callback; (b) a decoded
message whose channel is none of `"prices"`, `"trades"`, `"orderbook"`
is silently ignored — no update and no error callback fires; (c) a
message on a recognized channel whose payload fails validation
(`model_validate` raises) is likewise delivered to every registered
error callback and to no update callback (shown for each of the three
channels); (d) a recognized, successfully validated message invokes
exactly the callbacks registered for its channel, in registration order
(shown for each of the three channels, with non-raising callbacks). -/
theorem handle_message_dispatch {P U : Type} (validate : Channel → P → Except PyErr U)
    (cbs : WsCallbacks U) :
    (∀ e, handleMessage validate cbs (.undecodable e) = ⟨[], cbs.errorCbs, none⟩) ∧
    (∀ ch payload, ch ≠ some "prices" → ch ≠ some "trades" → ch ≠ some "orderbook" →
      handleMessage validate cbs (.decoded ch payload) = ⟨[], [], none⟩) ∧
    (∀ payload u, validate .prices payload = .ok u →
      (∀ c ∈ cbs.priceCbs, c.2 u = .ok ()) →
      handleMessage validate cbs (.decoded (some "prices") payload)
        = ⟨cbs.priceCbs.map Prod.fst, [], none⟩) ∧
    (∀ payload u, validate .trades payload = .ok u →
      (∀ c ∈ cbs.tradeCbs, c.2 u = .ok ()) →
      handleMessage validate cbs (.decoded (some "trades") payload)
        = ⟨cbs.tradeCbs.map Prod.fst, [], none⟩) ∧
    (∀ payload u, validate .orderbook payload = .ok u →
      (∀ c ∈ cbs.orderbookCbs, c.2 u = .ok ()) →
      handleMessage validate cbs (.decoded (some "orderbook") payload)
        = ⟨cbs.orderbookCbs.map Prod.fst, [], none⟩) ∧
    (∀ payload e, validate .prices payload = .error e →
      handleMessage validate cbs (.decoded (some "prices") payload)
        = ⟨[], cbs.errorCbs, none⟩) ∧
    (∀ payload e, validate .trades payload = .error e →
      handleMessage validate cbs (.decoded (some "trades") payload)
        = ⟨[], cbs.errorCbs, none⟩) ∧
    (∀ payload e, validate .orderbook payload = .error e →
      handleMessage validate cbs (.decoded (some "orderbook") payload)
        = ⟨[], cbs.errorCbs, none⟩) := by
  refine ⟨fun e => rfl, ?_, ?_, ?_, ?_, ?_, ?_, ?_⟩
  · intro ch payload h1 h2 h3
    rw [handleMessage, handleMessageBody]
    rw [if_neg h1, if_neg h2, if_neg h3]
  · intro payload u hval hok
    have hbody : handleMessageBody validate cbs (.decoded (some "prices") payload)
        = runCallbacks cbs.priceCbs u := by
      rw [handleMessageBody, if_pos rfl, hval]
    rw [handleMessage, hbody, runCallbacks_all_ok u cbs.priceCbs hok]
  · intro payload u hval hok
    have hbody : handleMessageBody validate cbs (.decoded (some "trades") payload)
        = runCallbacks cbs.tradeCbs u := by
      rw [handleMessageBody, if_neg (by decide), if_pos rfl, hval]
    rw [handleMessage, hbody, runCallbacks_all_ok u cbs.tradeCbs hok]
  · intro payload u hval hok
    have hbody : handleMessageBody validate cbs (.decoded (some "orderbook") payload)
        = runCallbacks cbs.orderbookCbs u := by
      rw [handleMessageBody, if_neg (by decide), if_neg (by decide), if_pos rfl, hval]
    rw [handleMessage, hbody, runCallbacks_all_ok u cbs.orderbookCbs hok]
  · intro payload e hval
    have hbody : handleMessageBody validate cbs (.decoded (some "prices") payload)
        = ([], some e) := by
      rw [handleMessageBody, if_pos rfl, hval]
    rw [handleMessage, hbody]
  · intro payload e hval
    have hbody : handleMessageBody validate cbs (.decoded (some "trades") payload)
        = ([], some e) := by
      rw [handleMessageBody, if_neg (by decide), if_pos rfl, hval]
    rw [handleMessage, hbody]
  · intro payload e hval
    have hbody : handleMessageBody validate cbs (.decoded (some "orderbook") payload)
        = ([], some e) := by
      rw [handleMessageBody, if_neg (by decide), if_neg (by decide), if_pos rfl, hval]
    rw [handleMessage, hbody]

/-- C7 witness for the amended statement: a registry with two price
callbacks (ids 0 and 1) and one error callback (id 5): an undecodable
frame fires only the error callback; an unrecognized channel fires
nothing; a valid `prices` message fires exactly callbacks 0 then 1; a
`prices` message whose payload fails validation fires only the error
callback and no update callback. -/
theorem handle_message_dispatch_witness :
    @handleMessage Unit Unit (fun _ _ => .ok ())
        ⟨[(0, fun _ => .ok ()), (1, fun _ => .ok ())], [], [], [5]⟩
        (.undecodable .jsonError)
      = ⟨[], [5], none⟩ ∧
    @handleMessage Unit Unit (fun _ _ => .ok ())
        ⟨[(0, fun _ => .ok ()), (1, fun _ => .ok ())], [], [], [5]⟩
        (.decoded (some "candles") ())
      = ⟨[], [], none⟩ ∧
    @handleMessage Unit Unit (fun _ _ => .ok ())
        ⟨[(0, fun _ => .ok ()), (1, fun _ => .ok ())], [], [], [5]⟩
        (.decoded (some "prices") ())
      = ⟨[0, 1], [], none⟩ ∧
    @handleMessage Unit Unit (fun _ _ => .error .validationError)
        ⟨[(0, fun _ => .ok ()), (1, fun _ => .ok ())], [], [], [5]⟩
        (.decoded (some "prices") ())
      = ⟨[], [5], none⟩ := by
  have h := @handle_message_dispatch Unit Unit (fun _ _ => .ok ())
    ⟨[(0, fun _ => .ok ()), (1, fun _ => .ok ())], [], [], [5]⟩
  have hbad := @handle_message_dispatch Unit Unit (fun _ _ => .error .validationError)
    ⟨[(0, fun _ => .ok ()), (1, fun _ => .ok ())], [], [], [5]⟩
  refine ⟨h.1 .jsonError, h.2.1 (some "candles") () (by decide) (by decide) (by decide),
    ?_, ?_⟩
  · exact h.2.2.1 () () rfl (by intro c hc; fin_cases hc <;> rfl)
  · exact hbad.2.2.2.2.2.1 () .validationError rfl

/-- C10: `_handle_message` never propagates an exception to the listening
loop (its `propagated` component is `none` on every input), and whenever
any stage of the body raises — byte decoding, JSON parsing, payload
validation, or a throwing update callback — the exception is delivered to
every registered error callback, the update callbacks fired up to that
point remaining fired. -/
theorem handle_message_never_propagates {P U : Type} (validate : Channel → P → Except PyErr U)
    (cbs : WsCallbacks U) (msg : WsMessage P) :
    (handleMessage validate cbs msg).propagated = none ∧
    (∀ e, (handleMessageBody validate cbs msg).2 = some e →
      (handleMessage validate cbs msg).errorsFired = cbs.errorCbs ∧
      (handleMessage validate cbs msg).updatesFired
        = (handleMessageBody validate cbs msg).1) := by
  rw [handleMessage]
  rcases hbody : handleMessageBody validate cbs msg with ⟨fired, exc⟩
  rcases exc with _ | e
  · exact ⟨rfl, fun e he => by simp at he⟩
  · exact ⟨rfl, fun e2 he2 => ⟨rfl, rfl⟩⟩

/-- C10 witness: a price callback that itself raises: the exception is
caught, the error callback (id 5) is informed, nothing propagates. -/
theorem handle_message_never_propagates_witness :
    (handleMessage (fun _ _ => (.ok () : Except PyErr Unit))
      ⟨[(0, fun _ => .error .valueError)], [], [], [5]⟩
      (.decoded (some "prices") ())).propagated = none ∧
    (handleMessage (fun _ _ => (.ok () : Except PyErr Unit))
      ⟨[(0, fun _ => .error .valueError)], [], [], [5]⟩
      (.decoded (some "prices") ())).errorsFired = [5] := by
  have h := handle_message_never_propagates (fun _ _ => (.ok () : Except PyErr Unit))
    (⟨[(0, fun _ => .error .valueError)], [], [], [5]⟩ : WsCallbacks Unit)
    (.decoded (some "prices") ())
  exact ⟨h.1, (h.2 .valueError rfl).1⟩

/-! #### Automatic reconnection (`_listen` / `_attempt_reconnect`)

When the listener observes the transport closed or erroring it calls
`_attempt_reconnect` once.  That method returns immediately if reconnect
is disabled; delivers a terminal error to the error callbacks if the
attempt counter has reached `max_reconnect_attempts`; otherwise it
increments the counter, sleeps `reconnect_interval`, and calls
`connect()`.  A successful `connect()` resets the counter to zero and
spawns a fresh listener, whose next disconnect re-enters this cycle (the
`fuel` parameter bounds how many such future disconnects are modelled).
A failing `connect()` raises; the exception is swallowed (`pass`) and the
coroutine returns — nothing re-invokes `_attempt_reconnect` afterwards. -/

/-- Observable events of the reconnect path. -/
inductive WsEvent
  | sleepInterval
  | connectCall
  | terminalError
  deriving DecidableEq

/-- The reconnect cycle entered after a disconnect, as the code executes
it: `connectSucceeds i` is the outcome of the `i`-th `connect()` call,
`attempts` is `self._reconnect_attempts`, and the result is the trace of
events of the rest of the execution. -/
def attemptReconnect (maxReconnectAttempts : Nat) (connectSucceeds : Nat → Bool)
    (reconnectFlag : Bool) : Nat → Nat → Nat → List WsEvent
  | 0, _, _ => []
  | fuel + 1, attempts, callIdx =>
    if reconnectFlag = false then []
    else if maxReconnectAttempts ≤ attempts then [.terminalError]
    else if connectSucceeds callIdx then
      .sleepInterval :: .connectCall ::
        attemptReconnect maxReconnectAttempts connectSucceeds reconnectFlag fuel 0 (callIdx + 1)
    else
      [.sleepInterval, .connectCall]

/-- C5: evaluating the code with `max_reconnect_attempts = 3` and every
`connect()` call failing: exactly one reconnect attempt is made (one
sleep, one connect call), no terminal error is ever delivered to the
error callbacks, and the execution stops — because the swallowed
`connect()` exception leaves nothing to re-invoke `_attempt_reconnect`,
contradicting both the claimed 3-attempt budget with terminal error and
the code's own `# Will retry on next attempt` comment. -/
theorem reconnect_gives_up_after_one_attempt :
    attemptReconnect 3 (fun _ => false) true 10 0 0
      = [.sleepInterval, .connectCall] ∧
    (attemptReconnect 3 (fun _ => false) true 10 0 0).count .connectCall = 1 ∧
    WsEvent.terminalError ∉ attemptReconnect 3 (fun _ => false) true 10 0 0 := by
  decide

end DFlow
